import Mathlib

/-!
Verification of the parallel batch-reingestion engine of `eg-util-rs`
against its natural-language specification.

The development shallowly embeds the two relevant Rust sources:

* `src/db.rs` — the `DatabaseConnection` wrapper around an optional live
  postgres client (`connect`, `disconnect`, the panicking `client()` accessor);
* `src/bin/parallel-ingest.rs` — query construction (`create_sql`),
  identifier discovery (`get_record_ids`), the batch-forming drain loop of
  `ingest_records`, the per-batch worker (`process_batch`,
  `reingest_attributes`) and the driving `main`.

External effects (the postgres connect attempt, the result of a query, the
success of a statement preparation) are supplied by explicit oracles, so every
definition is a pure, executable function.  A Rust `panic!` / `unwrap()` on an
error is modelled as an `Except.error` outcome (for the bootstrap flow) or as
the `panicked` flag of a worker's result.  Machine integers: record ids are
`i64`, modelled as `Int`; sizes and bounds are `usize`/`u8`, modelled as `Nat`
(no arithmetic in the program can overflow or wrap: it only compares and
subtracts lengths).
-/

namespace EgUtil

/-- Opaque stand-in for a live `postgres::Client` handle. -/
structure PgClient where
  handle : Nat
deriving DecidableEq

/-- `db.rs` lines 164–172: a `DatabaseConnection` wraps an optional live
client plus the resolved connection parameters. -/
structure DatabaseConnection where
  client : Option PgClient
  dsn : String
  host : String
  port : Nat
  user : String
  database : String
  application : Option String
deriving DecidableEq

/-- `DatabaseConnection::client` (`db.rs` lines 187–193).  The accessor
panics when no client is connected; the panic is modelled as the `.error`
branch carrying the panic message. -/
def DatabaseConnection.clientResult (c : DatabaseConnection) : Except String PgClient :=
  match c.client with
  | none => Except.error "DatabaseConnection is not yet connected!"
  | some cl => Except.ok cl

/-- `DatabaseConnection::connect` (`db.rs` lines 198–206).  The outcome of
`postgres::Client::connect` is the oracle `res`; on success the client is
stored, on failure the connection is left untouched and an error string is
returned. -/
def DatabaseConnection.connect (c : DatabaseConnection) (res : Except String PgClient) :
    DatabaseConnection × Except String Unit :=
  match res with
  | Except.ok cl => ({ c with client := some cl }, Except.ok ())
  | Except.error e => (c, Except.error ("Error connecting to database: " ++ e))

/-- `DatabaseConnection::disconnect` (`db.rs` lines 208–210). -/
def DatabaseConnection.disconnect (c : DatabaseConnection) : DatabaseConnection :=
  { c with client := none }

/-- Modelled from the spec: `partial_clone` is called by `ingest_records`
(`parallel-ingest.rs` line 136) but its definition is missing from the copy of
`db.rs` in this snapshot.  Spec section 9 describes it: each worker receives
"its own connection parameters derived from a shared template", i.e. a copy of
the parameters that does not carry the live client. -/
def DatabaseConnection.partial_clone (c : DatabaseConnection) : DatabaseConnection :=
  { c with client := none }

/-- `parallel-ingest.rs` lines 8–21: the job configuration.  `max_threads`
is a `u8`, ids and the batch size are `usize`; both are modelled as `Nat`. -/
structure IngestOptions where
  max_threads : Nat
  do_browse : Bool
  do_attrs : Bool
  do_search : Bool
  do_facets : Bool
  do_display : Bool
  min_id : Nat
  max_id : Nat
  newest_first : Bool
  batch_size : Nat
  attrs : List String
deriving DecidableEq

/-- `create_sql` (`parallel-ingest.rs` lines 87–103): pure construction of the
discovery query text.  `format!("{}", n)` on a `usize` is decimal, i.e.
`Nat.repr`. -/
def create_sql (options : IngestOptions) : String :=
  let select := "SELECT id FROM biblio.record_entry"
  let filter :=
    "WHERE NOT deleted AND id > " ++ Nat.repr options.min_id ++
      (if options.max_id > 0 then " AND id < " ++ Nat.repr options.max_id else "")
  let order_by :=
    if options.newest_first then "ORDER BY create_date DESC, id DESC" else "ORDER BY id"
  select ++ " " ++ filter ++ " " ++ order_by

/-- `get_record_ids` (`parallel-ingest.rs` lines 105–116).  `queryRes` is the
store's response to a query text.  `connection.client()` panics when the
connection is not established, and the `.unwrap()` on the query result panics
when the store rejects the query; both panics are the `.error` branch. -/
def get_record_ids (connection : DatabaseConnection) (sql : String)
    (queryRes : String → Except String (List Int)) : Except String (List Int) :=
  match connection.clientResult with
  | Except.error msg => Except.error msg
  | Except.ok _ =>
    match queryRes sql with
    | Except.error e => Except.error e
    | Except.ok rows => Except.ok rows

/-- The batch-forming drain loop of `ingest_records` (`parallel-ingest.rs`
lines 125–139), written with explicit fuel so that the (possible)
non-termination of the source loop is observable: `none` means the loop is
still running after `fuel` iterations.  One iteration computes
`end = match ids.len() { 0 => break, n if n >= batch_size => batch_size,
 _ => ids.len() }` and drains `ids[0..end]` into a batch. -/
def ingestLoop (batch_size : Nat) : Nat → List Int → Option (List (List Int))
  | _, [] => some []
  | 0, _ :: _ => none
  | fuel + 1, id :: rest =>
    let ids := id :: rest
    let e := if ids.length ≥ batch_size then batch_size else ids.length
    Option.map (fun bs => ids.take e :: bs) (ingestLoop batch_size fuel (ids.drop e))

/-- Per-worker oracle: the outcome of the worker's connect attempt, of its
statement preparation, and of the reingest query for each record id. -/
structure WorkerEnv where
  connectRes : Except String PgClient
  prepareOk : Bool
  queryOk : Int → Bool

/-- A value bound into a prepared-statement execution (`postgres` `ToSql`
arguments): a record id (`i64`) or the attribute-name slice (`&[String]`). -/
inductive PgParam where
  | int (i : Int)
  | strs (s : List String)
deriving DecidableEq

/-- Observable actions of a worker, in program order: the `info!` progress
log, a statement preparation, a prepared-statement execution with its bound
parameters, and the `error!` log for a failed record. -/
inductive Event where
  | infoProcessing (n : Nat)
  | prepared (sql : String)
  | exec (sql : String) (params : List PgParam)
  | logRecordError (id : Int)
deriving DecidableEq

/-- What one worker did: its emitted events, and whether it died in a panic
(an `unwrap()` of an error). -/
structure WorkerResult where
  events : List Event
  panicked : Bool
deriving DecidableEq

/-- The 2-argument statement text (`parallel-ingest.rs` lines 189–193). -/
def twoArgSql : String :=
  "\n            SELECT metabib.reingest_record_attributes($1)\n            FROM biblio.record_entry\n            WHERE id = $2\n        "

/-- The 3-argument statement text (`parallel-ingest.rs` lines 172–176). -/
def threeArgSql : String :=
  "\n            SELECT metabib.reingest_record_attributes($1, $3)\n            FROM biblio.record_entry\n            WHERE id = $2\n        "

/-- The per-identifier loop shared by both branches of `reingest_attributes`
(`parallel-ingest.rs` lines 180–185 and 197–201): execute the prepared
statement for each id in order; on failure log the id and continue. -/
def reingestLoop (sql : String) (mkParams : Int → List PgParam) (env : WorkerEnv) :
    List Int → List Event
  | [] => []
  | id :: rest =>
    Event.exec sql (mkParams id) ::
      (if env.queryOk id then reingestLoop sql mkParams env rest
       else Event.logRecordError id :: reingestLoop sql mkParams env rest)

/-- `reingest_attributes` (`parallel-ingest.rs` lines 153–203): log progress,
pick the statement variant from `options.attrs.len() > 0`, prepare it once
(`prepare(sql).unwrap()` panics when preparation fails), then run the
per-identifier loop.  The 3-argument branch binds `[id, id, attrs]`, the
2-argument branch binds `[id, id]`. -/
def reingest_attributes (options : IngestOptions) (env : WorkerEnv) (ids : List Int) :
    WorkerResult :=
  let info := Event.infoProcessing ids.length
  if options.attrs.length > 0 then
    if env.prepareOk then
      { events := info :: Event.prepared threeArgSql ::
          reingestLoop threeArgSql
            (fun id => [PgParam.int id, PgParam.int id, PgParam.strs options.attrs]) env ids,
        panicked := false }
    else { events := [info], panicked := true }
  else
    if env.prepareOk then
      { events := info :: Event.prepared twoArgSql ::
          reingestLoop twoArgSql (fun id => [PgParam.int id, PgParam.int id]) env ids,
        panicked := false }
    else { events := [info], panicked := true }

/-- `process_batch` (`parallel-ingest.rs` lines 145–151): the worker connects
its own (partially cloned) connection — `connect().unwrap()` panics on
failure, which kills the worker before any event is emitted — then runs the
attribute phase when `do_attrs` is set. -/
def process_batch (options : IngestOptions) (env : WorkerEnv)
    (connection : DatabaseConnection) (ids : List Int) : WorkerResult :=
  match connection.connect env.connectRes with
  | (_, Except.error _) => { events := [], panicked := true }
  | (_, Except.ok _) =>
    if options.do_attrs then reingest_attributes options env ids
    else { events := [], panicked := false }

/-- Dispatch of the formed batches (`pool.execute(move || process_batch ...)`,
`parallel-ingest.rs` lines 135–138): batch `i` runs on a partial clone of the
bootstrap connection under its own oracle `envs i`.  Workers share no state,
so the pool's interleaving is irrelevant to each batch's outcome and the run
is the list of per-batch results. -/
def runBatches (options : IngestOptions) (connection : DatabaseConnection)
    (envs : Nat → WorkerEnv) : Nat → List (List Int) → List WorkerResult
  | _, [] => []
  | i, b :: rest =>
    process_batch options (envs i) connection.partial_clone b ::
      runBatches options connection envs (i + 1) rest

/-- `ingest_records` (`parallel-ingest.rs` lines 118–142): form the batches
with the drain loop, dispatch each to a worker, join.  `none` means the drain
loop did not terminate (`ids.length` iterations always suffice when it
does). -/
def ingest_records (options : IngestOptions) (connection : DatabaseConnection)
    (envs : Nat → WorkerEnv) (ids : List Int) : Option (List WorkerResult) :=
  Option.map (runBatches options connection envs 0) (ingestLoop options.batch_size ids.length ids)

/-- Oracle for the bootstrap flow of `main`: the outcome of the single
discovery connection attempt and the store's response to the discovery
query. -/
structure BootstrapEnv where
  connectRes : Except String PgClient
  queryRes : String → Except String (List Int)

/-- What a whole run did: the batches handed to the pool, the per-batch
results, and the panic message if the bootstrap flow died. -/
structure RunTrace where
  dispatched : List (List Int)
  results : List WorkerResult
  panicMsg : Option String

/-- `main` (`parallel-ingest.rs` lines 205–222): connect the bootstrap
connection (result ignored by the source!), build the discovery query, fetch
the ids (a failure here panics before anything is dispatched), disconnect,
then partition and dispatch.  `none` means the drain loop diverged. -/
def mainRun (options : IngestOptions) (connection : DatabaseConnection)
    (boot : BootstrapEnv) (envs : Nat → WorkerEnv) : Option RunTrace :=
  let step := connection.connect boot.connectRes
  let connection := step.1
  let sql := create_sql options
  match get_record_ids connection sql boot.queryRes with
  | Except.error msg => some { dispatched := [], results := [], panicMsg := some msg }
  | Except.ok ids =>
    let connection := connection.disconnect
    match ingestLoop options.batch_size ids.length ids with
    | none => none
    | some bs =>
      some { dispatched := bs,
             results := runBatches options connection envs 0 bs,
             panicMsg := none }

/-- The record id bound by a prepared-statement execution event (both
statement shapes bind the id as their first parameter). -/
def Event.execId : Event → Option Int
  | Event.exec _ (PgParam.int i :: _) => some i
  | _ => none

/-- Is this event a prepared-statement execution? -/
def Event.isExec : Event → Bool
  | Event.exec _ _ => true
  | _ => false

/-- Is this event the `error!` log of a failed record? -/
def Event.isLogError : Event → Bool
  | Event.logRecordError _ => true
  | _ => false

/-- The record ids executed, in order. -/
def execIds (evs : List Event) : List Int :=
  evs.filterMap Event.execId

/-- The record ids whose failure was logged, in order. -/
def logErrorIds (evs : List Event) : List Int :=
  evs.filterMap fun ev => match ev with
    | Event.logRecordError i => some i
    | _ => none

/-- The statement texts prepared by a worker, in order. -/
def preparedSqls (evs : List Event) : List String :=
  evs.filterMap fun ev => match ev with
    | Event.prepared s => some s
    | _ => none

/-- `pat` occurs as a contiguous substring of `s`. -/
def sqlContains (s pat : String) : Prop :=
  pat.data <:+: s.data

instance (s pat : String) : Decidable (sqlContains s pat) :=
  List.decidableInfix pat.data s.data

/-- A connection template as the builder produces it from the default
parameters: no live client. -/
def connEx : DatabaseConnection :=
  { client := none,
    dsn := "host=localhost port=5432 user=evergreen dbname=evergreen",
    host := "localhost", port := 5432, user := "evergreen", database := "evergreen",
    application := none }

/-- A concrete job configuration: attribute phase on, batch size 2, no
explicit bounds, no attribute-kind filter. -/
def optsEx : IngestOptions :=
  { max_threads := 5, do_browse := false, do_attrs := true, do_search := false,
    do_facets := false, do_display := false, min_id := 0, max_id := 0,
    newest_first := false, batch_size := 2, attrs := [] }

/-- A worker oracle whose connection, preparation and every query succeed. -/
def envOkEx : WorkerEnv :=
  { connectRes := Except.ok ⟨0⟩, prepareOk := true, queryOk := fun _ => true }

/-- A worker oracle whose connection attempt fails. -/
def envFailEx : WorkerEnv :=
  { connectRes := Except.error "connection refused", prepareOk := true,
    queryOk := fun _ => true }

/-- A worker oracle where the reingest query fails exactly for record 2. -/
def envRecord2FailsEx : WorkerEnv :=
  { connectRes := Except.ok ⟨0⟩, prepareOk := true, queryOk := fun id => id != 2 }

/-- A bootstrap oracle whose discovery connection attempt fails. -/
def bootFailEx : BootstrapEnv :=
  { connectRes := Except.error "connection refused",
    queryRes := fun _ => Except.ok [1, 2] }

/-! ### The batch-forming drain loop -/

theorem ingestLoop_nil (B fuel : Nat) : ingestLoop B fuel [] = some [] := by
  cases fuel <;> rfl

theorem ingestLoop_zero_fuel (B : Nat) (id : Int) (rest : List Int) :
    ingestLoop B 0 (id :: rest) = none := rfl

theorem ingestLoop_succ (B fuel : Nat) (id : Int) (rest : List Int) :
    ingestLoop B (fuel + 1) (id :: rest) =
      Option.map
        (fun bs =>
          (id :: rest).take (if (id :: rest).length ≥ B then B else (id :: rest).length) :: bs)
        (ingestLoop B fuel
          ((id :: rest).drop (if (id :: rest).length ≥ B then B else (id :: rest).length))) := rfl

/-- The drained prefix length `end` clamps at the list's length, so taking and
dropping it is the same as taking and dropping the batch size itself. -/
theorem take_batchEnd (B : Nat) (l : List Int) :
    l.take (if l.length ≥ B then B else l.length) = l.take B := by
  split
  · rfl
  · next h =>
    rw [List.take_length, List.take_of_length_le (by omega)]

theorem drop_batchEnd (B : Nat) (l : List Int) :
    l.drop (if l.length ≥ B then B else l.length) = l.drop B := by
  split
  · rfl
  · next h =>
    rw [List.drop_length, List.drop_eq_nil_of_le (by omega)]

theorem ingestLoop_succ_cons (B fuel : Nat) (id : Int) (rest : List Int) :
    ingestLoop B (fuel + 1) (id :: rest) =
      Option.map (fun bs => (id :: rest).take B :: bs)
        (ingestLoop B fuel ((id :: rest).drop B)) := by
  rw [ingestLoop_succ, take_batchEnd, drop_batchEnd]

/-- Whenever the loop terminates, the emitted batches concatenate (in emission
order) back to the original identifier list. -/
theorem ingestLoop_join (B : Nat) :
    ∀ (fuel : Nat) (ids : List Int) (bs : List (List Int)),
      ingestLoop B fuel ids = some bs → bs.flatten = ids := by
  intro fuel
  induction fuel with
  | zero =>
    intro ids bs h
    cases ids with
    | nil => rw [ingestLoop_nil] at h; cases h; rfl
    | cons id rest => rw [ingestLoop_zero_fuel] at h; cases h
  | succ fuel ih =>
    intro ids bs h
    cases ids with
    | nil => rw [ingestLoop_nil] at h; cases h; rfl
    | cons id rest =>
      rw [ingestLoop_succ_cons] at h
      rcases Option.map_eq_some'.mp h with ⟨bs', h', rfl⟩
      simp [List.flatten, ih _ _ h', List.take_append_drop]

/-- With a positive batch size, `ids.length` iterations of fuel always
suffice: the loop terminates. -/
theorem ingestLoop_total (B : Nat) (hB : 0 < B) :
    ∀ (fuel : Nat) (ids : List Int), ids.length ≤ fuel →
      ∃ bs, ingestLoop B fuel ids = some bs := by
  intro fuel
  induction fuel with
  | zero =>
    intro ids h
    have : ids = [] := List.eq_nil_of_length_eq_zero (by omega)
    exact ⟨[], this ▸ ingestLoop_nil B 0⟩
  | succ fuel ih =>
    intro ids h
    cases ids with
    | nil => exact ⟨[], ingestLoop_nil B _⟩
    | cons id rest =>
      have hlen : ((id :: rest).drop B).length ≤ fuel := by
        rw [List.length_drop]
        simp only [List.length_cons] at h ⊢
        omega
      rcases ih _ hlen with ⟨bs', h'⟩
      exact ⟨(id :: rest).take B :: bs', by rw [ingestLoop_succ_cons, h']; rfl⟩

/-- With a positive batch size the loop emits exactly `⌈N/B⌉` batches, written
`(N + B - 1) / B` over the naturals. -/
theorem ingestLoop_length (B : Nat) (hB : 0 < B) :
    ∀ (fuel : Nat) (ids : List Int) (bs : List (List Int)),
      ingestLoop B fuel ids = some bs → bs.length = (ids.length + B - 1) / B := by
  intro fuel
  induction fuel with
  | zero =>
    intro ids bs h
    cases ids with
    | nil =>
      rw [ingestLoop_nil] at h; cases h
      have h0 : (0 + B - 1) / B = 0 := Nat.div_eq_of_lt (by omega)
      simpa using h0.symm
    | cons id rest => rw [ingestLoop_zero_fuel] at h; cases h
  | succ fuel ih =>
    intro ids bs h
    cases ids with
    | nil =>
      rw [ingestLoop_nil] at h; cases h
      have h0 : (0 + B - 1) / B = 0 := Nat.div_eq_of_lt (by omega)
      simpa using h0.symm
    | cons id rest =>
      rw [ingestLoop_succ_cons] at h
      rcases Option.map_eq_some'.mp h with ⟨bs', h', rfl⟩
      have hlen := ih _ _ h'
      rw [List.length_drop] at hlen
      simp only [List.length_cons] at hlen ⊢
      rw [hlen]
      by_cases hcmp : rest.length + 1 ≤ B
      · have h0 : rest.length + 1 - B = 0 := by omega
        rw [h0]
        have h1 : (0 + B - 1) / B = 0 := Nat.div_eq_of_lt (by omega)
        have h2 : (rest.length + 1 + B - 1) / B = 1 :=
          Nat.div_eq_of_lt_le (by omega) (by omega)
        omega
      · rw [show rest.length + 1 + B - 1 = (rest.length + 1 - B + B - 1) + B by omega,
          Nat.add_div_right _ hB]

/-- With a positive batch size every batch except possibly the last holds
exactly `B` identifiers. -/
theorem ingestLoop_dropLast (B : Nat) (hB : 0 < B) :
    ∀ (fuel : Nat) (ids : List Int) (bs : List (List Int)),
      ingestLoop B fuel ids = some bs → ∀ b ∈ bs.dropLast, b.length = B := by
  intro fuel
  induction fuel with
  | zero =>
    intro ids bs h
    cases ids with
    | nil => rw [ingestLoop_nil] at h; cases h; intro b hb; cases hb
    | cons id rest => rw [ingestLoop_zero_fuel] at h; cases h
  | succ fuel ih =>
    intro ids bs h
    cases ids with
    | nil => rw [ingestLoop_nil] at h; cases h; intro b hb; cases hb
    | cons id rest =>
      rw [ingestLoop_succ_cons] at h
      rcases Option.map_eq_some'.mp h with ⟨bs', h', rfl⟩
      cases bs' with
      | nil => intro b hb; cases hb
      | cons b0 bt =>
        intro b hb
        rw [List.dropLast_cons₂] at hb
        rcases List.mem_cons.mp hb with hb | hb
        · subst hb
          have hdrop : (id :: rest).drop B ≠ [] := by
            intro hnil
            rw [hnil, ingestLoop_nil] at h'
            cases h'
          have hlt : B < (id :: rest).length := by
            by_contra hle
            exact hdrop (List.drop_eq_nil_of_le (by omega))
          rw [List.length_take]
          omega
        · exact ih _ _ h' b hb

/-- The loop of a non-empty list emits at least one batch. -/
theorem ingestLoop_ne_nil (B fuel : Nat) (ids : List Int) (bs : List (List Int))
    (h : ingestLoop B fuel ids = some bs) (hne : ids ≠ []) : bs ≠ [] := by
  intro hnil
  subst hnil
  have hj := ingestLoop_join B fuel ids [] h
  simp only [List.flatten] at hj
  exact hne hj.symm

/-- With a positive batch size, the last emitted batch of a non-empty list
holds `N mod B` identifiers, or `B` itself when `B` divides `N`. -/
theorem ingestLoop_getLast (B : Nat) (hB : 0 < B) :
    ∀ (fuel : Nat) (ids : List Int) (bs : List (List Int)),
      ingestLoop B fuel ids = some bs → ids ≠ [] →
      ∃ b, bs.getLast? = some b ∧
        b.length = if ids.length % B = 0 then B else ids.length % B := by
  intro fuel
  induction fuel with
  | zero =>
    intro ids bs h hne
    cases ids with
    | nil => exact absurd rfl hne
    | cons id rest => rw [ingestLoop_zero_fuel] at h; cases h
  | succ fuel ih =>
    intro ids bs h hne
    cases ids with
    | nil => exact absurd rfl hne
    | cons id rest =>
      rw [ingestLoop_succ_cons] at h
      rcases Option.map_eq_some'.mp h with ⟨bs', h', rfl⟩
      by_cases hdrop : (id :: rest).drop B = []
      · rw [hdrop, ingestLoop_nil] at h'
        cases h'
        refine ⟨(id :: rest).take B, List.getLast?_singleton _, ?_⟩
        have hle : (id :: rest).length ≤ B := by
          by_contra hgt
          rw [List.drop_eq_nil_iff] at hdrop
          omega
        rw [List.take_of_length_le hle]
        rcases Nat.lt_or_ge (id :: rest).length B with hlt | hge
        · rw [Nat.mod_eq_of_lt hlt, if_neg (by simp)]
        · have heq : (id :: rest).length = B := by omega
          rw [heq, if_pos (Nat.mod_self B)]
      · have hne' : bs' ≠ [] := ingestLoop_ne_nil B fuel _ bs' h' hdrop
        rcases ih _ _ h' hdrop with ⟨b, hlast, hblen⟩
        refine ⟨b, ?_, ?_⟩
        · cases bs' with
          | nil => exact absurd rfl hne'
          | cons b0 bt => rw [List.getLast?_cons_cons]; exact hlast
        · have hBle : B ≤ (id :: rest).length := by
            by_contra hgt
            exact hdrop (List.drop_eq_nil_of_le (by omega))
          rw [List.length_drop] at hblen
          have hmod : ((id :: rest).length - B) % B = (id :: rest).length % B := by
            conv_rhs => rw [show (id :: rest).length = ((id :: rest).length - B) + B by omega]
            rw [Nat.add_mod_right]
          rw [hmod] at hblen
          exact hblen

example : ingestLoop 2 5 ([1, 2, 3, 4, 5] : List Int) = some [[1, 2], [3, 4], [5]] := rfl

example : ingestLoop 3 4 ([7, 8, 9] : List Int) = some [[7, 8, 9]] := rfl

example : ingestLoop 0 6 ([1] : List Int) = none := rfl

/-- C1: for every identifier list of length `N` and every batch size `B > 0`,
the batch-forming loop of `ingest_records` terminates and emits exactly
`⌈N/B⌉` batches; every batch except possibly the last holds exactly `B`
identifiers; the last holds `N mod B` of them (or `B` when `B` divides `N`
and the list is non-empty); and the batches, concatenated in emission order,
reconstruct the original list. -/
theorem claim1_batch_partition (B : Nat) (ids : List Int) (hB : 0 < B) :
    ∃ bs, ingestLoop B ids.length ids = some bs ∧
      bs.length = (ids.length + B - 1) / B ∧
      (∀ b ∈ bs.dropLast, b.length = B) ∧
      (ids ≠ [] → ∃ b, bs.getLast? = some b ∧
        b.length = if ids.length % B = 0 then B else ids.length % B) ∧
      bs.flatten = ids := by
  rcases ingestLoop_total B hB ids.length ids (le_refl _) with ⟨bs, h⟩
  exact ⟨bs, h, ingestLoop_length B hB _ _ _ h, ingestLoop_dropLast B hB _ _ _ h,
    fun hne => ingestLoop_getLast B hB _ _ _ h hne, ingestLoop_join B _ _ _ h⟩

/-- Witness for C1 at batch size 2 over `[1, 2, 3, 4, 5]`. -/
theorem claim1_batch_partition_witness :
    ∃ bs, ingestLoop 2 ([1, 2, 3, 4, 5] : List Int).length [1, 2, 3, 4, 5] = some bs ∧
      bs.length = (([1, 2, 3, 4, 5] : List Int).length + 2 - 1) / 2 ∧
      (∀ b ∈ bs.dropLast, b.length = 2) ∧
      (([1, 2, 3, 4, 5] : List Int) ≠ [] → ∃ b, bs.getLast? = some b ∧
        b.length = if ([1, 2, 3, 4, 5] : List Int).length % 2 = 0 then 2
          else ([1, 2, 3, 4, 5] : List Int).length % 2) ∧
      bs.flatten = [1, 2, 3, 4, 5] :=
  claim1_batch_partition 2 [1, 2, 3, 4, 5] (by decide)

/-- C9: the drain loop terminates for every finite identifier list when the
batch size is at least 1 (a fuel of `N` iterations suffices); with batch size
0 — a value the option surface accepts, since `--batch-size` parses any
`usize` — and a non-empty list, it never terminates: no amount of fuel
completes it, and each unrolling emits an empty batch while leaving the list
untouched. -/
theorem claim9_termination (ids : List Int) :
    (∀ B, 0 < B → ∃ bs, ingestLoop B ids.length ids = some bs) ∧
    (ids ≠ [] →
      (∀ fuel, ingestLoop 0 fuel ids = none) ∧
      ∀ fuel, ingestLoop 0 (fuel + 1) ids =
        Option.map (fun bs => ([] : List Int) :: bs) (ingestLoop 0 fuel ids)) := by
  constructor
  · intro B hB
    exact ingestLoop_total B hB ids.length ids (le_refl _)
  · intro hne
    obtain ⟨id, rest, rfl⟩ := List.exists_cons_of_ne_nil hne
    constructor
    · intro fuel
      induction fuel with
      | zero => exact ingestLoop_zero_fuel 0 id rest
      | succ fuel ih =>
        rw [ingestLoop_succ_cons, List.drop_zero, ih]
        rfl
    · intro fuel
      rw [ingestLoop_succ_cons 0 fuel id rest, List.drop_zero, List.take_zero]

/-- Witness for C9: a positive batch size terminates on a concrete list, and
batch size 0 exhausts any amount of fuel on a non-empty list. -/
theorem claim9_termination_witness :
    (∃ bs, ingestLoop 3 ([10, 20, 30, 40] : List Int).length [10, 20, 30, 40] = some bs) ∧
    ingestLoop 0 7 ([10] : List Int) = none :=
  ⟨(claim9_termination [10, 20, 30, 40]).1 3 (by decide),
   ((claim9_termination [10]).2 (by decide)).1 7⟩

/-! ### The per-identifier reingest loop and the workers -/

theorem execId_exec_int (s : String) (i : Int) (ps : List PgParam) :
    Event.execId (Event.exec s (PgParam.int i :: ps)) = some i := rfl

theorem preparedSqls_info (n : Nat) (l : List Event) :
    preparedSqls (Event.infoProcessing n :: l) = preparedSqls l := rfl

theorem preparedSqls_prepared (s : String) (l : List Event) :
    preparedSqls (Event.prepared s :: l) = s :: preparedSqls l := rfl

theorem filter_isExec_info (n : Nat) (l : List Event) :
    (Event.infoProcessing n :: l).filter Event.isExec = l.filter Event.isExec := rfl

theorem filter_isExec_prepared (s : String) (l : List Event) :
    (Event.prepared s :: l).filter Event.isExec = l.filter Event.isExec := rfl

/-- Every identifier handed to the per-identifier loop is executed exactly
once, in order, whatever the per-record outcomes are. -/
theorem reingestLoop_execIds (sql : String) (mkParams : Int → List PgParam) (env : WorkerEnv)
    (hmk : ∀ id, ∃ t, mkParams id = PgParam.int id :: t) :
    ∀ ids, execIds (reingestLoop sql mkParams env ids) = ids := by
  intro ids
  induction ids with
  | nil => rfl
  | cons id rest ih =>
    rcases hmk id with ⟨t, ht⟩
    by_cases hq : env.queryOk id
    · simp [reingestLoop, hq, execIds, List.filterMap_cons, ht, execId_exec_int]
      simpa [execIds] using ih
    · simp [reingestLoop, hq, execIds, List.filterMap_cons, ht, execId_exec_int, Event.execId]
      simpa [execIds] using ih

/-- The per-identifier loop logs an error exactly for the identifiers whose
query fails, in order. -/
theorem reingestLoop_logErrorIds (sql : String) (mkParams : Int → List PgParam)
    (env : WorkerEnv) :
    ∀ ids, logErrorIds (reingestLoop sql mkParams env ids) =
      ids.filter (fun id => !env.queryOk id) := by
  intro ids
  induction ids with
  | nil => rfl
  | cons id rest ih =>
    by_cases hq : env.queryOk id
    · simp [reingestLoop, hq, logErrorIds, List.filterMap_cons, List.filter_cons]
      simpa [logErrorIds] using ih
    · simp [reingestLoop, hq, logErrorIds, List.filterMap_cons, List.filter_cons]
      simpa [logErrorIds] using ih

/-- The execution events of the per-identifier loop are exactly one prepared
statement execution per identifier, in order. -/
theorem reingestLoop_filter_isExec (sql : String) (mkParams : Int → List PgParam)
    (env : WorkerEnv) :
    ∀ ids, (reingestLoop sql mkParams env ids).filter Event.isExec =
      ids.map (fun id => Event.exec sql (mkParams id)) := by
  intro ids
  induction ids with
  | nil => rfl
  | cons id rest ih =>
    by_cases hq : env.queryOk id <;>
      simp [reingestLoop, hq, List.filter_cons, Event.isExec, ih]

/-- The per-identifier loop never prepares a statement (preparation happens
once, before the loop). -/
theorem reingestLoop_preparedSqls (sql : String) (mkParams : Int → List PgParam)
    (env : WorkerEnv) :
    ∀ ids, preparedSqls (reingestLoop sql mkParams env ids) = [] := by
  intro ids
  induction ids with
  | nil => rfl
  | cons id rest ih =>
    by_cases hq : env.queryOk id <;>
      simp [reingestLoop, hq, preparedSqls, List.filterMap_cons] <;>
      simpa [preparedSqls] using ih

/-- When its statement preparation succeeds, `reingest_attributes` finishes
without panicking, executes every identifier of its batch exactly once in
order, and logs exactly the failing identifiers. -/
theorem reingest_attributes_spec (options : IngestOptions) (env : WorkerEnv)
    (ids : List Int) (hprep : env.prepareOk = true) :
    (reingest_attributes options env ids).panicked = false ∧
    execIds (reingest_attributes options env ids).events = ids ∧
    logErrorIds (reingest_attributes options env ids).events =
      ids.filter (fun id => !env.queryOk id) := by
  by_cases hattrs : options.attrs.length > 0
  · have hmk : ∀ id : Int, ∃ t,
        [PgParam.int id, PgParam.int id, PgParam.strs options.attrs] = PgParam.int id :: t :=
      fun id => ⟨_, rfl⟩
    simp [reingest_attributes, hattrs, hprep, execIds, logErrorIds, List.filterMap_cons,
      Event.execId]
    constructor
    · simpa [execIds] using reingestLoop_execIds threeArgSql _ env hmk ids
    · simpa [logErrorIds] using reingestLoop_logErrorIds threeArgSql _ env ids
  · have hmk : ∀ id : Int, ∃ t,
        [PgParam.int id, PgParam.int id] = PgParam.int id :: t :=
      fun id => ⟨_, rfl⟩
    simp [reingest_attributes, hattrs, hprep, execIds, logErrorIds, List.filterMap_cons,
      Event.execId]
    constructor
    · simpa [execIds] using reingestLoop_execIds twoArgSql _ env hmk ids
    · simpa [logErrorIds] using reingestLoop_logErrorIds twoArgSql _ env ids

/-- A worker whose connect attempt fails dies in the `unwrap()` panic before
emitting any event: nothing is logged and nothing is executed. -/
theorem process_batch_connect_fail (options : IngestOptions) (env : WorkerEnv)
    (conn : DatabaseConnection) (ids : List Int) (e : String)
    (hc : env.connectRes = Except.error e) :
    process_batch options env conn ids = { events := [], panicked := true } := by
  simp [process_batch, DatabaseConnection.connect, hc]

/-- A worker whose connection and preparation succeed, with the attribute
phase enabled, executes every identifier of its batch exactly once. -/
theorem process_batch_ok (options : IngestOptions) (env : WorkerEnv)
    (conn : DatabaseConnection) (ids : List Int) (cl : PgClient)
    (hc : env.connectRes = Except.ok cl) (hprep : env.prepareOk = true)
    (hattrs : options.do_attrs = true) :
    (process_batch options env conn ids).panicked = false ∧
    execIds (process_batch options env conn ids).events = ids ∧
    logErrorIds (process_batch options env conn ids).events =
      ids.filter (fun id => !env.queryOk id) := by
  simp only [process_batch, DatabaseConnection.connect, hc, hattrs, if_true]
  exact reingest_attributes_spec options env ids hprep

/-- The result of batch `j` in a dispatched run is the worker run on batch
`j` under its own oracle, independently of every other batch. -/
theorem runBatches_get? (options : IngestOptions) (conn : DatabaseConnection)
    (envs : Nat → WorkerEnv) :
    ∀ (bs : List (List Int)) (k j : Nat),
      (runBatches options conn envs k bs).get? j =
        (bs.get? j).map (fun b => process_batch options (envs (k + j)) conn.partial_clone b) := by
  intro bs
  induction bs with
  | nil => intro k j; cases j <;> rfl
  | cons b rest ih =>
    intro k j
    cases j with
    | zero => rfl
    | succ j =>
      have h := ih (k + 1) j
      have hidx : k + 1 + j = k + (j + 1) := by omega
      rw [hidx] at h
      simpa [runBatches] using h

/-- When every worker's connection and preparation succeed and the attribute
phase is on, the executed identifiers of the dispatched batches are exactly
the batches themselves. -/
theorem runBatches_execIds (options : IngestOptions) (conn : DatabaseConnection)
    (envs : Nat → WorkerEnv)
    (hok : ∀ i, ∃ cl, (envs i).connectRes = Except.ok cl)
    (hprep : ∀ i, (envs i).prepareOk = true)
    (hattrs : options.do_attrs = true) :
    ∀ (bs : List (List Int)) (k : Nat),
      (runBatches options conn envs k bs).map (fun r => execIds r.events) = bs := by
  intro bs
  induction bs with
  | nil => intro k; rfl
  | cons b rest ih =>
    intro k
    rcases hok k with ⟨cl, hc⟩
    have h := process_batch_ok options (envs k) conn.partial_clone b cl hc (hprep k) hattrs
    simp [runBatches, h.2.1, ih (k + 1)]

/-- C2: with a positive batch size, the attribute phase enabled and every
worker's connection (and statement preparation) succeeding, the run executes
each discovered identifier exactly once: the per-batch executed identifiers,
concatenated in dispatch order, are the discovered list itself, so every
identifier's execution count equals its occurrence count in the discovery
result. -/
theorem claim2_exactly_once (options : IngestOptions) (conn : DatabaseConnection)
    (envs : Nat → WorkerEnv) (ids : List Int)
    (hB : 0 < options.batch_size) (hattrs : options.do_attrs = true)
    (hok : ∀ i, ∃ cl, (envs i).connectRes = Except.ok cl)
    (hprep : ∀ i, (envs i).prepareOk = true) :
    ∃ rs, ingest_records options conn envs ids = some rs ∧
      (rs.map (fun r => execIds r.events)).flatten = ids ∧
      ∀ x : Int, ((rs.map (fun r => execIds r.events)).flatten).count x = ids.count x := by
  rcases ingestLoop_total options.batch_size hB ids.length ids (le_refl _) with ⟨bs, h⟩
  refine ⟨runBatches options conn envs 0 bs, ?_, ?_, ?_⟩
  · rw [ingest_records, h]
    rfl
  · rw [runBatches_execIds options conn envs hok hprep hattrs bs 0]
    exact ingestLoop_join options.batch_size _ _ _ h
  · rw [runBatches_execIds options conn envs hok hprep hattrs bs 0,
      ingestLoop_join options.batch_size _ _ _ h]
    intro x
    rfl

/-- Witness for C2: batch size 2 over `[1, 2, 3, 4, 5]` with all-succeeding
workers. -/
theorem claim2_exactly_once_witness :
    ∃ rs, ingest_records optsEx connEx (fun _ => envOkEx) [1, 2, 3, 4, 5] = some rs ∧
      (rs.map (fun r => execIds r.events)).flatten = [1, 2, 3, 4, 5] ∧
      ∀ x : Int, ((rs.map (fun r => execIds r.events)).flatten).count x =
        ([1, 2, 3, 4, 5] : List Int).count x :=
  claim2_exactly_once optsEx connEx (fun _ => envOkEx) [1, 2, 3, 4, 5]
    (by decide) (by decide) (fun _ => ⟨⟨0⟩, rfl⟩) (fun _ => rfl)

/-- C6: within a batch, per-record reingest failures are contained.  Whatever
the per-record outcomes (`env.queryOk` is arbitrary, so in particular any
prefix of the batch may fail), the worker executes every identifier of the
batch exactly once in order, logs exactly the failing identifiers with their
ids, and finishes without panicking — the failure never propagates out of the
worker. -/
theorem claim6_record_failures_contained (options : IngestOptions) (env : WorkerEnv)
    (ids : List Int) (hprep : env.prepareOk = true) :
    (reingest_attributes options env ids).panicked = false ∧
    execIds (reingest_attributes options env ids).events = ids ∧
    logErrorIds (reingest_attributes options env ids).events =
      ids.filter (fun id => !env.queryOk id) :=
  reingest_attributes_spec options env ids hprep

/-- Witness for C6: record 2 of batch `[1, 2, 3]` fails; 1, 2, 3 are all
executed, only 2 is logged, and the worker does not panic. -/
theorem claim6_record_failures_contained_witness :
    (reingest_attributes optsEx envRecord2FailsEx [1, 2, 3]).panicked = false ∧
    execIds (reingest_attributes optsEx envRecord2FailsEx [1, 2, 3]).events = [1, 2, 3] ∧
    logErrorIds (reingest_attributes optsEx envRecord2FailsEx [1, 2, 3]).events =
      ([1, 2, 3] : List Int).filter (fun id => !envRecord2FailsEx.queryOk id) :=
  claim6_record_failures_contained optsEx envRecord2FailsEx [1, 2, 3] rfl

/-- C7: the statement variant is resolved once per worker, before the
per-identifier loop: the worker prepares exactly one statement — the
3-argument one when the configured attribute-kind set is non-empty, the
2-argument one when it is empty — and every execution in its batch uses that
statement, binding `(id, id, attrs)` respectively `(id, id)` for each
identifier of the batch, in order. -/
theorem claim7_statement_variant (options : IngestOptions) (env : WorkerEnv)
    (conn : DatabaseConnection) (b : List Int) (cl : PgClient)
    (hc : env.connectRes = Except.ok cl) (hprep : env.prepareOk = true)
    (hattrs : options.do_attrs = true) :
    preparedSqls (process_batch options env conn b).events =
      [if options.attrs.length > 0 then threeArgSql else twoArgSql] ∧
    (process_batch options env conn b).events.filter Event.isExec =
      (if options.attrs.length > 0 then
        b.map (fun id =>
          Event.exec threeArgSql [PgParam.int id, PgParam.int id, PgParam.strs options.attrs])
      else b.map (fun id => Event.exec twoArgSql [PgParam.int id, PgParam.int id])) := by
  simp only [process_batch, DatabaseConnection.connect, hc, hattrs, if_true]
  by_cases ha : options.attrs.length > 0
  · simp only [reingest_attributes, if_pos ha, hprep, if_true]
    exact ⟨by rw [preparedSqls_info, preparedSqls_prepared, reingestLoop_preparedSqls],
      by rw [filter_isExec_info, filter_isExec_prepared, reingestLoop_filter_isExec]⟩
  · simp only [reingest_attributes, if_neg ha, hprep, if_true]
    exact ⟨by rw [preparedSqls_info, preparedSqls_prepared, reingestLoop_preparedSqls],
      by rw [filter_isExec_info, filter_isExec_prepared, reingestLoop_filter_isExec]⟩

/-- Witness for C7 with a non-empty attribute-kind set on batch `[4, 5]`. -/
theorem claim7_statement_variant_witness :
    preparedSqls (process_batch { optsEx with attrs := ["item_lang"] } envOkEx
        connEx.partial_clone [4, 5]).events =
      [if ({ optsEx with attrs := ["item_lang"] } : IngestOptions).attrs.length > 0
        then threeArgSql else twoArgSql] ∧
    (process_batch { optsEx with attrs := ["item_lang"] } envOkEx
        connEx.partial_clone [4, 5]).events.filter Event.isExec =
      (if ({ optsEx with attrs := ["item_lang"] } : IngestOptions).attrs.length > 0 then
        ([4, 5] : List Int).map (fun id =>
          Event.exec threeArgSql [PgParam.int id, PgParam.int id,
            PgParam.strs ({ optsEx with attrs := ["item_lang"] } : IngestOptions).attrs])
      else ([4, 5] : List Int).map (fun id =>
        Event.exec twoArgSql [PgParam.int id, PgParam.int id])) :=
  claim7_statement_variant { optsEx with attrs := ["item_lang"] } envOkEx
    connEx.partial_clone [4, 5] ⟨0⟩ rfl rfl rfl

/-- Counterexample to C5 as stated: when the worker's connect attempt fails,
the claim says "the error is logged"; in the source the failing `connect()`
result is `unwrap()`ed, so the worker thread panics and emits no log event at
all (no `error!` call runs).  At a concrete failing worker the event list is
empty — in particular it holds no error-log event — and the worker panicked. -/
theorem claim5_counterexample :
    (process_batch optsEx envFailEx connEx.partial_clone [5]).panicked = true ∧
    (process_batch optsEx envFailEx connEx.partial_clone [5]).events = [] ∧
    ((process_batch optsEx envFailEx connEx.partial_clone [5]).events.any
      Event.isLogError) = false := by
  decide

/-- C5 as amended: when a worker's connect attempt fails, the worker panics
in the `unwrap()` (rather than logging the error): that batch is abandoned
with no reingest execution and no log event, while every other batch —
already dispatched or dispatched later — whose own connection and preparation
succeed (with the attribute phase on) still completes normally, executing all
of its identifiers. -/
theorem claim5_connect_failure_isolated (options : IngestOptions)
    (conn : DatabaseConnection) (envs : Nat → WorkerEnv) (bs : List (List Int))
    (i : Nat) (e : String)
    (hfail : (envs i).connectRes = Except.error e) (hi : i < bs.length) :
    ∃ r, (runBatches options conn envs 0 bs).get? i = some r ∧
      r.panicked = true ∧ r.events = [] ∧
      ∀ (j : Nat) (hj : j < bs.length) (cl : PgClient),
        (envs j).connectRes = Except.ok cl → (envs j).prepareOk = true →
        options.do_attrs = true →
        ∃ s, (runBatches options conn envs 0 bs).get? j = some s ∧
          s.panicked = false ∧ execIds s.events = bs.get ⟨j, hj⟩ := by
  have hgi := runBatches_get? options conn envs bs 0 i
  rw [List.get?_eq_get hi] at hgi
  refine ⟨process_batch options (envs i) conn.partial_clone (bs.get ⟨i, hi⟩), ?_, ?_, ?_, ?_⟩
  · rw [hgi]
    simp
  · rw [process_batch_connect_fail options (envs i) conn.partial_clone _ e hfail]
  · rw [process_batch_connect_fail options (envs i) conn.partial_clone _ e hfail]
  · intro j hj cl hcj hpj hattrs
    have hgj := runBatches_get? options conn envs bs 0 j
    rw [List.get?_eq_get hj] at hgj
    refine ⟨process_batch options (envs j) conn.partial_clone (bs.get ⟨j, hj⟩), ?_, ?_, ?_⟩
    · rw [hgj]
      simp
    · exact (process_batch_ok options (envs j) conn.partial_clone _ cl hcj hpj hattrs).1
    · exact (process_batch_ok options (envs j) conn.partial_clone _ cl hcj hpj hattrs).2.1

/-- Witness for C5 (amended): worker 0's connection fails, worker 1's
succeeds; batch `[1, 2]` is abandoned without events while batch `[3, 4]`
executes both of its identifiers. -/
theorem claim5_connect_failure_isolated_witness :
    ∃ r, (runBatches optsEx connEx (fun i => if i = 0 then envFailEx else envOkEx) 0
        [[1, 2], [3, 4]]).get? 0 = some r ∧
      r.panicked = true ∧ r.events = [] ∧
      ∀ (j : Nat) (hj : j < ([[1, 2], [3, 4]] : List (List Int)).length) (cl : PgClient),
        ((fun i => if i = 0 then envFailEx else envOkEx) j).connectRes = Except.ok cl →
        ((fun i => if i = 0 then envFailEx else envOkEx) j).prepareOk = true →
        optsEx.do_attrs = true →
        ∃ s, (runBatches optsEx connEx (fun i => if i = 0 then envFailEx else envOkEx) 0
            [[1, 2], [3, 4]]).get? j = some s ∧
          s.panicked = false ∧
          execIds s.events = ([[1, 2], [3, 4]] : List (List Int)).get ⟨j, hj⟩ :=
  claim5_connect_failure_isolated optsEx connEx
    (fun i => if i = 0 then envFailEx else envOkEx) [[1, 2], [3, 4]] 0
    "connection refused" rfl (by decide)

/-! ### The connection wrapper and the bootstrap flow -/

/-- C10: `DatabaseConnection::client()` panics exactly when no client is
connected — before any successful `connect()` and after `disconnect()` — and
under the precondition that a client is connected the panic branch is
unreachable: the accessor returns the stored client.  A successful
`connect()` establishes the client; a failed one leaves the connection as it
was. -/
theorem claim10_client_panic (c : DatabaseConnection) :
    ((∃ msg, c.clientResult = Except.error msg) ↔ c.client = none) ∧
    (∀ cl, c.client = some cl → c.clientResult = Except.ok cl) ∧
    c.disconnect.clientResult = Except.error "DatabaseConnection is not yet connected!" ∧
    (∀ cl, ((c.connect (Except.ok cl)).1).clientResult = Except.ok cl) ∧
    (∀ e, (c.connect (Except.error e)).1 = c) := by
  refine ⟨⟨?_, ?_⟩, ?_, ?_, ?_, ?_⟩
  · rintro ⟨msg, hmsg⟩
    cases hcl : c.client with
    | none => rfl
    | some cl =>
      rw [DatabaseConnection.clientResult, hcl] at hmsg
      cases hmsg
  · intro h
    exact ⟨_, by rw [DatabaseConnection.clientResult, h]⟩
  · intro cl h
    rw [DatabaseConnection.clientResult, h]
  · rfl
  · intro cl
    rfl
  · intro e
    rfl

/-- Witness for C10: the builder-produced connection has no client, so the
accessor panics on it after a `disconnect()`, and returns the client after a
successful `connect()`. -/
theorem claim10_client_panic_witness :
    connEx.disconnect.clientResult =
      Except.error "DatabaseConnection is not yet connected!" ∧
    ((connEx.connect (Except.ok ⟨7⟩)).1).clientResult = Except.ok ⟨7⟩ :=
  ⟨(claim10_client_panic connEx).2.2.1, (claim10_client_panic connEx).2.2.2.1 ⟨7⟩⟩

/-- C8: when the bootstrap connection is not established (its connect attempt
failed and the builder-produced connection starts with no client) or the
store rejects the discovery query, discovery panics and the run dies there:
the trace holds a panic message, no batch is ever dispatched and no worker
result exists — there is no partial-discovery fallback. -/
theorem claim8_discovery_failure_fatal (options : IngestOptions)
    (conn : DatabaseConnection) (boot : BootstrapEnv) (envs : Nat → WorkerEnv)
    (hc0 : conn.client = none)
    (hfail : (∃ ce, boot.connectRes = Except.error ce) ∨
      ∃ qe, boot.queryRes (create_sql options) = Except.error qe) :
    ∃ msg, mainRun options conn boot envs =
      some { dispatched := [], results := [], panicMsg := some msg } := by
  rcases hfail with ⟨ce, hce⟩ | ⟨qe, hqe⟩
  · refine ⟨"DatabaseConnection is not yet connected!", ?_⟩
    simp [mainRun, DatabaseConnection.connect, hce, get_record_ids,
      DatabaseConnection.clientResult, hc0]
  · cases hcr : boot.connectRes with
    | error ce =>
      refine ⟨"DatabaseConnection is not yet connected!", ?_⟩
      simp [mainRun, DatabaseConnection.connect, hcr, get_record_ids,
        DatabaseConnection.clientResult, hc0]
    | ok cl =>
      refine ⟨qe, ?_⟩
      simp [mainRun, DatabaseConnection.connect, hcr, get_record_ids,
        DatabaseConnection.clientResult, hqe]

/-- Witness for C8: a failing bootstrap connection aborts the run with no
dispatched batch. -/
theorem claim8_discovery_failure_fatal_witness :
    ∃ msg, mainRun optsEx connEx bootFailEx (fun _ => envOkEx) =
      some { dispatched := [], results := [], panicMsg := some msg } :=
  claim8_discovery_failure_fatal optsEx connEx bootFailEx (fun _ => envOkEx) rfl
    (Or.inl ⟨"connection refused", rfl⟩)

/-! ### The discovery query text

The bound predicates are settled at the level of the generated characters:
a bound predicate is a substring such as `"id > "` / `"id < "` / `"id >= "`.
Formatted numbers only contribute digit characters, so the characters `<` and
`=` can only come from the fixed query skeleton. -/

/-- The digit characters of a base-10 digit are neither `<` nor `=`. -/
theorem digitChar_lt_ne_special (m : Nat) (hm : m < 10) :
    Nat.digitChar m ≠ '<' ∧ Nat.digitChar m ≠ '=' := by
  interval_cases m <;> exact ⟨by decide, by decide⟩

/-- Every character produced by the positional formatter is either carried
over from the accumulator or is the digit character of a value below the
base. -/
theorem toDigitsCore_mem (b : Nat) (hb : 0 < b) :
    ∀ (fuel n : Nat) (ds : List Char) (c : Char),
      c ∈ Nat.toDigitsCore b fuel n ds →
      c ∈ ds ∨ ∃ m, m < b ∧ c = Nat.digitChar m := by
  intro fuel
  induction fuel with
  | zero =>
    intro n ds c hc
    exact Or.inl hc
  | succ fuel ih =>
    intro n ds c hc
    simp only [Nat.toDigitsCore] at hc
    split at hc
    · rcases List.mem_cons.mp hc with h | h
      · exact Or.inr ⟨n % b, Nat.mod_lt _ hb, h⟩
      · exact Or.inl h
    · rcases ih (n / b) (Nat.digitChar (n % b) :: ds) c hc with h | h
      · rcases List.mem_cons.mp h with h | h
        · exact Or.inr ⟨n % b, Nat.mod_lt _ hb, h⟩
        · exact Or.inl h
      · exact Or.inr h

/-- The decimal rendering of a natural number holds neither `<` nor `=`. -/
theorem repr_char_not_special (n : Nat) (c : Char) (hc : c ∈ (Nat.repr n).data) :
    c ≠ '<' ∧ c ≠ '=' := by
  have hdata : (Nat.repr n).data = Nat.toDigitsCore 10 (n + 1) n [] := rfl
  rw [hdata] at hc
  rcases toDigitsCore_mem 10 (by omega) (n + 1) n [] c hc with h | ⟨m, hm, rfl⟩
  · cases h
  · exact digitChar_lt_ne_special m hm

/-- The characters of the generated query, as the concatenation of its
skeleton pieces and the two formatted bounds. -/
theorem create_sql_data (o : IngestOptions) :
    (create_sql o).data =
      "SELECT id FROM biblio.record_entry".data ++ " ".data ++
      ("WHERE NOT deleted AND id > ".data ++ (Nat.repr o.min_id).data ++
        (if o.max_id > 0 then " AND id < ".data ++ (Nat.repr o.max_id).data else [])) ++
      " ".data ++
      (if o.newest_first then "ORDER BY create_date DESC, id DESC".data
        else "ORDER BY id".data) := by
  have h0 : ("" : String).data = [] := rfl
  unfold create_sql
  by_cases hmax : o.max_id > 0 <;> cases hnew : o.newest_first <;>
    simp [hmax, hnew, String.data_append, h0]

theorem mem_ite_list {c : Char} (p : Prop) [Decidable p] (l1 l2 : List Char)
    (h : c ∈ (if p then l1 else l2)) : c ∈ l1 ∨ c ∈ l2 := by
  split at h
  · exact Or.inl h
  · exact Or.inr h

/-- Without an upper bound, the generated query holds no `<` character. -/
theorem create_sql_no_lt (o : IngestOptions) (hmax : o.max_id = 0) :
    ('<' : Char) ∉ (create_sql o).data := by
  rw [create_sql_data, if_neg (by omega : ¬o.max_id > 0)]
  intro hmem
  simp only [List.append_nil, List.mem_append, or_assoc] at hmem
  rcases hmem with h | h | h | h | h | h
  · exact absurd h (by decide)
  · exact absurd h (by decide)
  · exact absurd h (by decide)
  · exact (repr_char_not_special o.min_id '<' h).1 rfl
  · exact absurd h (by decide)
  · rcases mem_ite_list _ _ _ h with h | h
    · exact absurd h (by decide)
    · exact absurd h (by decide)

/-- The generated query never holds an `=` character, whatever the bounds. -/
theorem create_sql_no_eq (o : IngestOptions) : ('=' : Char) ∉ (create_sql o).data := by
  rw [create_sql_data]
  intro hmem
  simp only [List.mem_append, or_assoc] at hmem
  rcases hmem with h | h | h | h | h | h | h
  · exact absurd h (by decide)
  · exact absurd h (by decide)
  · exact absurd h (by decide)
  · exact (repr_char_not_special o.min_id '=' h).2 rfl
  · rcases mem_ite_list _ _ _ h with h | h
    · rcases List.mem_append.mp h with h | h
      · exact absurd h (by decide)
      · exact (repr_char_not_special o.max_id '=' h).2 rfl
    · cases h
  · exact absurd h (by decide)
  · rcases mem_ite_list _ _ _ h with h | h
    · exact absurd h (by decide)
    · exact absurd h (by decide)

/-- The generated query always holds the strict lower-bound predicate
`id > <min>`, whatever the configuration. -/
theorem create_sql_contains_lower (o : IngestOptions) :
    sqlContains (create_sql o) ("id > " ++ Nat.repr o.min_id) := by
  unfold sqlContains
  refine ⟨"SELECT id FROM biblio.record_entry".data ++ " ".data ++
      "WHERE NOT deleted AND ".data,
    (if o.max_id > 0 then " AND id < ".data ++ (Nat.repr o.max_id).data else []) ++
      " ".data ++
      (if o.newest_first then "ORDER BY create_date DESC, id DESC".data
        else "ORDER BY id".data), ?_⟩
  rw [create_sql_data, String.data_append]
  rw [show "WHERE NOT deleted AND id > ".data =
    "WHERE NOT deleted AND ".data ++ "id > ".data from rfl]
  simp [List.append_assoc]

/-- The generated query holds an upper-bound predicate exactly when the
configured upper bound is nonzero. -/
theorem create_sql_upper_iff (o : IngestOptions) :
    sqlContains (create_sql o) "id < " ↔ 0 < o.max_id := by
  constructor
  · intro h
    by_contra hmax
    exact create_sql_no_lt o (by omega) (h.subset (by decide))
  · intro hmax
    unfold sqlContains
    refine ⟨"SELECT id FROM biblio.record_entry".data ++ " ".data ++
        "WHERE NOT deleted AND id > ".data ++ (Nat.repr o.min_id).data ++ " AND ".data,
      (Nat.repr o.max_id).data ++ " ".data ++
        (if o.newest_first then "ORDER BY create_date DESC, id DESC".data
          else "ORDER BY id".data), ?_⟩
    rw [create_sql_data, if_pos hmax]
    rw [show " AND id < ".data = " AND ".data ++ "id < ".data from rfl]
    simp [List.append_assoc]

/-- Counterexample to C3 as stated: with neither bound set (`min_id = 0`,
`max_id = 0`, the option defaults), the claim says the query holds no
lower-bound predicate; the source always emits `id > <min>`, so the default
query still holds the lower-bound predicate `id > `. -/
theorem claim3_counterexample :
    optsEx.min_id = 0 ∧ optsEx.max_id = 0 ∧ sqlContains (create_sql optsEx) "id > " := by
  refine ⟨rfl, rfl, ?_⟩
  decide

/-- C3 as amended: the generated query always holds the lower-bound predicate
`id > <min>` — the lower bound is not optional, it merely defaults to 0 — and
holds an upper-bound predicate exactly when an upper bound is set (nonzero):
only a lower bound yields no upper-bound predicate, both bounds yield both
predicates. -/
theorem claim3_bound_predicates (o : IngestOptions) :
    sqlContains (create_sql o) ("id > " ++ Nat.repr o.min_id) ∧
    (sqlContains (create_sql o) "id < " ↔ 0 < o.max_id) :=
  ⟨create_sql_contains_lower o, create_sql_upper_iff o⟩

/-- Witness for C3 (amended) at `min_id = 100`, `max_id = 200`. -/
theorem claim3_bound_predicates_witness :
    sqlContains (create_sql { optsEx with min_id := 100, max_id := 200 })
      ("id > " ++
        Nat.repr ({ optsEx with min_id := 100, max_id := 200 } : IngestOptions).min_id) ∧
    (sqlContains (create_sql { optsEx with min_id := 100, max_id := 200 }) "id < " ↔
      0 < ({ optsEx with min_id := 100, max_id := 200 } : IngestOptions).max_id) :=
  claim3_bound_predicates { optsEx with min_id := 100, max_id := 200 }

set_option maxRecDepth 8192 in
/-- Counterexample to C4 as stated: with `min_id = 100` the generated query
reads `... WHERE NOT deleted AND id > 100 ...` — a strict (exclusive)
comparison — and holds no inclusive `id >= ` predicate, while the claim says
the lower-bound predicate selects identifiers greater than **or equal to**
the bound. -/
theorem claim4_counterexample :
    create_sql { optsEx with min_id := 100 } =
      "SELECT id FROM biblio.record_entry WHERE NOT deleted AND id > 100 ORDER BY id" ∧
    ¬sqlContains (create_sql { optsEx with min_id := 100 }) "id >= " := by
  exact ⟨by decide, by decide⟩

/-- C4 as amended: whenever a lower bound is configured the generated query's
lower-bound predicate is the strict `id > <min>` — it excludes the bound
itself — and the query holds no inclusive `id >= ` form. -/
theorem claim4_lower_bound_exclusive (o : IngestOptions) :
    sqlContains (create_sql o) ("id > " ++ Nat.repr o.min_id) ∧
    ¬sqlContains (create_sql o) "id >= " :=
  ⟨create_sql_contains_lower o,
   fun h => create_sql_no_eq o (h.subset (by decide))⟩

/-- Witness for C4 (amended) at `min_id = 100`. -/
theorem claim4_lower_bound_exclusive_witness :
    sqlContains (create_sql { optsEx with min_id := 100 })
      ("id > " ++ Nat.repr ({ optsEx with min_id := 100 } : IngestOptions).min_id) ∧
    ¬sqlContains (create_sql { optsEx with min_id := 100 }) "id >= " :=
  claim4_lower_bound_exclusive { optsEx with min_id := 100 }

end EgUtil
